import Mathlib

/-!
Verification of the open4go/log structured-logging helper.

The Go source (src/log.go) is shallowly embedded below.  External
collaborators are passed as explicit parameters:
 - the viper configuration store is a function from key to string;
 - the build-metadata snapshot (read from environment variables at
   process start) is a `BuildMeta` value;
 - the result of runtime.Caller is an `Option Frame`;
 - the output of runtime/debug.Stack is an ambient string parameter.

Go interface values that flow through context.Value are modelled by
`GoValue` (nil, or a string), which is enough to capture the dynamic
comparison `v != ""` the source performs on them.  A logrus entry's
field map is modelled as an association list where the most recent
write wins (each key is written at most once per entry construction).
-/

namespace Open4goLog

/-- A dynamic Go value as returned by context.Value: either the nil
interface (key absent) or a string. -/
inductive GoValue
  | nil
  | str (s : String)
deriving DecidableEq, Repr

/-- The Go comparison `v != ""` on an interface value: the nil interface
is different from the interface holding the empty string. -/
def GoValue.neStrEmpty : GoValue → Bool
  | .nil => true
  | .str s => s != ""

/-- A non-nil context is a chain of key/value pairs; Value returns the
most recent binding for the key, or the nil interface. -/
abbrev CtxData := List (String × GoValue)

/-- context.Value lookup: first (most recent) binding wins, nil if absent. -/
def ctxValue : CtxData → String → GoValue
  | [], _ => .nil
  | (k, v) :: rest, key => if k = key then v else ctxValue rest key

/-- A logrus entry's field map, most recent write first. -/
abbrev Entry := List (String × GoValue)

/-- logrus Entry.WithField: record a field (most recent write shadows). -/
def withField (e : Entry) (k : String) (v : GoValue) : Entry := (k, v) :: e

/-- Field lookup in an entry (most recent write wins). -/
def lookupField : Entry → String → Option GoValue
  | [], _ => none
  | (k, v) :: rest, key => if k = key then some v else lookupField rest key

/-- The build & instance metadata snapshot read once from the
environment variables IMAGE_TAG, GIT_COMMIT, GIT_BRANCH, BUILD_TIME,
HOSTNAME (src/log.go, buildMeta / meta). -/
structure BuildMeta where
  Image : String
  GitCommit : String
  GitBranch : String
  BuildTime : String
  Instance : String
deriving DecidableEq, Repr

/-- The request-context block of getBaseEntry (src/log.go lines
112-125): each of the four keys is looked up and attached when the
retrieved dynamic value compares unequal to the empty string. -/
def attachCtxFields (c : CtxData) (e : Entry) : Entry :=
  let e := if (ctxValue c "traceid").neStrEmpty then withField e "trace" (ctxValue c "traceid") else e
  let e := if (ctxValue c "ip").neStrEmpty then withField e "ip" (ctxValue c "ip") else e
  let e := if (ctxValue c "MERCHANT_KEY").neStrEmpty then withField e "merchantId" (ctxValue c "MERCHANT_KEY") else e
  if (ctxValue c "OPERATOR_KEY").neStrEmpty then withField e "operator" (ctxValue c "OPERATOR_KEY") else e

/-- The build & instance block of getBaseEntry (src/log.go lines
128-142): each non-empty metadata string is attached. -/
def attachMetaFields (m : BuildMeta) (e : Entry) : Entry :=
  let e := if m.Image != "" then withField e "image" (.str m.Image) else e
  let e := if m.GitCommit != "" then withField e "git_commit" (.str m.GitCommit) else e
  let e := if m.GitBranch != "" then withField e "git_branch" (.str m.GitBranch) else e
  let e := if m.BuildTime != "" then withField e "build_time" (.str m.BuildTime) else e
  if m.Instance != "" then withField e "instance" (.str m.Instance) else e

/-- getBaseEntry (src/log.go lines 103-145): always attaches server
(read from the configuration at call time), file and func; then the
context fields when the context is non-nil; then the non-empty
build-metadata fields. -/
def getBaseEntry (cfg : String → String) (m : BuildMeta) (ctx : Option CtxData)
    (filename fn : String) : Entry :=
  let serverName := cfg "server.name"
  let logCtx := withField (withField (withField [] "server" (.str serverName))
    "file" (.str filename)) "func" (.str fn)
  let logCtx := match ctx with
    | none => logCtx
    | some c => attachCtxFields c logCtx
  attachMetaFields m logCtx

/-- One frame as reported by runtime.Caller: the fully qualified
function name, the full file path and the (1-based) line number. -/
structure Frame where
  funcName : String
  file : String
  line : Nat
deriving DecidableEq, Repr

/-- Go strings.Split with a one-character separator, on the character
list of the string (the separators used here are ASCII, so character
splitting agrees with Go's byte-level splitting). -/
def goSplit (sep : Char) : List Char → List (List Char)
  | [] => [[]]
  | c :: cs =>
    if c = sep then [] :: goSplit sep cs
    else
      match goSplit sep cs with
      | [] => [[c]]
      | p :: ps => (c :: p) :: ps

/-- Go strings.LastIndex with a one-character separator: index of the
last occurrence, or -1 when the separator does not occur. -/
def goLastIndex (sep : Char) : List Char → Int
  | [] => -1
  | c :: cs =>
    let r := goLastIndex sep cs
    if 0 ≤ r then r + 1
    else if c = sep then 0 else -1

/-- getCallerInfo (src/log.go lines 148-161): on failure of
runtime.Caller it returns the sentinels; on success it formats the last
path component of the file, a colon and the line number, and strips the
function name up to and including its last dot. -/
def getCallerInfo : Option Frame → String × String
  | none => ("unknown", "unknown")
  | some f =>
    let fileParts := goSplit '/' f.file.toList
    let filename := String.mk (fileParts.getLastD []) ++ ":" ++ toString f.line
    let funcName := f.funcName.toList
    let fn := String.mk (funcName.drop ((goLastIndex '.' funcName + 1).toNat))
    (filename, fn)

/-- getStackTrace (src/log.go lines 164-166): string(debug.Stack());
the runtime's stack dump is an ambient parameter of the embedding. -/
def getStackTrace (stack : String) : String := stack

/-- Log (src/log.go lines 72-75): resolve the caller and build the base
entry; no stacktrace field is attached. -/
def Log (cfg : String → String) (m : BuildMeta) (caller : Option Frame)
    (ctx : Option CtxData) : Entry :=
  let p := getCallerInfo caller
  getBaseEntry cfg m ctx p.1 p.2

/-- ErrorWithStack (src/log.go lines 78-88): the base entry plus the
stacktrace field; the error value and args only shape the message
handed to the sink, not the entry's field map. -/
def ErrorWithStack (cfg : String → String) (m : BuildMeta) (caller : Option Frame)
    (ctx : Option CtxData) (stack : String) : Entry :=
  let p := getCallerInfo caller
  withField (getBaseEntry cfg m ctx p.1 p.2) "stacktrace" (.str (getStackTrace stack))

/-- ErrorfWithStack (src/log.go lines 91-97): identical entry
construction to ErrorWithStack; the format string and args only shape
the message handed to the sink. -/
def ErrorfWithStack (cfg : String → String) (m : BuildMeta) (caller : Option Frame)
    (ctx : Option CtxData) (stack : String) : Entry :=
  let p := getCallerInfo caller
  withField (getBaseEntry cfg m ctx p.1 p.2) "stacktrace" (.str (getStackTrace stack))

/-- The logrus severity levels the initialization switch can select. -/
inductive LogrusLevel
  | debug
  | info
  | warn
  | error
deriving DecidableEq, Repr

/-- The level-selection switch of Init (src/log.go lines 53-64): the
four recognized names select their level, anything else selects info.
(The rest of Init configures the output writer and the JSON formatter,
which are external to this embedding.) -/
def initLevel (logLevel : String) : LogrusLevel :=
  if logLevel = "debug" then .debug
  else if logLevel = "info" then .info
  else if logLevel = "warn" then .warn
  else if logLevel = "error" then .error
  else .info

/-- Spec-side description of the caller-name formatting: the final
segment after the last separator, i.e. everything up to and including
the last separator stripped. -/
def specFinalSegment (sep : Char) : List Char → List Char
  | [] => []
  | c :: cs => if c = sep ∨ sep ∈ cs then specFinalSegment sep cs else c :: cs

/-! Field-lookup characterization lemmas. -/

theorem lookupField_cons_ne {k key : String} (v : GoValue) (e : Entry) (h : ¬ k = key) :
    lookupField ((k, v) :: e) key = lookupField e key := by
  simp [lookupField, h]

theorem lookup_attachCtx_other (c : CtxData) (e : Entry) (key : String)
    (h1 : ¬ "trace" = key) (h2 : ¬ "ip" = key) (h3 : ¬ "merchantId" = key)
    (h4 : ¬ "operator" = key) :
    lookupField (attachCtxFields c e) key = lookupField e key := by
  unfold attachCtxFields
  dsimp only
  split <;> split <;> split <;> split <;>
    simp [withField, lookupField_cons_ne, h1, h2, h3, h4]

theorem lookup_attachCtx_trace (c : CtxData) (e : Entry) :
    lookupField (attachCtxFields c e) "trace" =
      if (ctxValue c "traceid").neStrEmpty then some (ctxValue c "traceid")
      else lookupField e "trace" := by
  unfold attachCtxFields
  dsimp only
  split <;> split <;> split <;> split <;> simp_all [withField, lookupField]

theorem lookup_attachCtx_ip (c : CtxData) (e : Entry) :
    lookupField (attachCtxFields c e) "ip" =
      if (ctxValue c "ip").neStrEmpty then some (ctxValue c "ip")
      else lookupField e "ip" := by
  unfold attachCtxFields
  dsimp only
  split <;> split <;> split <;> split <;> simp_all [withField, lookupField]

theorem lookup_attachCtx_merchant (c : CtxData) (e : Entry) :
    lookupField (attachCtxFields c e) "merchantId" =
      if (ctxValue c "MERCHANT_KEY").neStrEmpty then some (ctxValue c "MERCHANT_KEY")
      else lookupField e "merchantId" := by
  unfold attachCtxFields
  dsimp only
  split <;> split <;> split <;> split <;> simp_all [withField, lookupField]

theorem lookup_attachCtx_operator (c : CtxData) (e : Entry) :
    lookupField (attachCtxFields c e) "operator" =
      if (ctxValue c "OPERATOR_KEY").neStrEmpty then some (ctxValue c "OPERATOR_KEY")
      else lookupField e "operator" := by
  unfold attachCtxFields
  dsimp only
  split <;> split <;> split <;> split <;> simp_all [withField, lookupField]

theorem lookup_attachMeta_other (m : BuildMeta) (e : Entry) (key : String)
    (h1 : ¬ "image" = key) (h2 : ¬ "git_commit" = key) (h3 : ¬ "git_branch" = key)
    (h4 : ¬ "build_time" = key) (h5 : ¬ "instance" = key) :
    lookupField (attachMetaFields m e) key = lookupField e key := by
  unfold attachMetaFields
  dsimp only
  split <;> split <;> split <;> split <;> split <;>
    simp [withField, lookupField_cons_ne, h1, h2, h3, h4, h5]

theorem lookup_attachMeta_image (m : BuildMeta) (e : Entry) :
    lookupField (attachMetaFields m e) "image" =
      if m.Image != "" then some (.str m.Image) else lookupField e "image" := by
  unfold attachMetaFields
  dsimp only
  split <;> split <;> split <;> split <;> split <;> simp_all [withField, lookupField]

theorem lookup_attachMeta_gitCommit (m : BuildMeta) (e : Entry) :
    lookupField (attachMetaFields m e) "git_commit" =
      if m.GitCommit != "" then some (.str m.GitCommit) else lookupField e "git_commit" := by
  unfold attachMetaFields
  dsimp only
  split <;> split <;> split <;> split <;> split <;> simp_all [withField, lookupField]

theorem lookup_attachMeta_gitBranch (m : BuildMeta) (e : Entry) :
    lookupField (attachMetaFields m e) "git_branch" =
      if m.GitBranch != "" then some (.str m.GitBranch) else lookupField e "git_branch" := by
  unfold attachMetaFields
  dsimp only
  split <;> split <;> split <;> split <;> split <;> simp_all [withField, lookupField]

theorem lookup_attachMeta_buildTime (m : BuildMeta) (e : Entry) :
    lookupField (attachMetaFields m e) "build_time" =
      if m.BuildTime != "" then some (.str m.BuildTime) else lookupField e "build_time" := by
  unfold attachMetaFields
  dsimp only
  split <;> split <;> split <;> split <;> split <;> simp_all [withField, lookupField]

theorem lookup_attachMeta_instance (m : BuildMeta) (e : Entry) :
    lookupField (attachMetaFields m e) "instance" =
      if m.Instance != "" then some (.str m.Instance) else lookupField e "instance" := by
  unfold attachMetaFields
  dsimp only
  split <;> split <;> split <;> split <;> split <;> simp_all [withField, lookupField]

theorem base_lookup_server (cfg : String → String) (m : BuildMeta) (ctx : Option CtxData)
    (f fn : String) :
    lookupField (getBaseEntry cfg m ctx f fn) "server" = some (.str (cfg "server.name")) := by
  cases ctx with
  | none =>
    unfold getBaseEntry
    dsimp only
    rw [lookup_attachMeta_other _ _ _ (by decide) (by decide) (by decide) (by decide) (by decide)]
    simp [withField, lookupField]
  | some c =>
    unfold getBaseEntry
    dsimp only
    rw [lookup_attachMeta_other _ _ _ (by decide) (by decide) (by decide) (by decide) (by decide),
      lookup_attachCtx_other _ _ _ (by decide) (by decide) (by decide) (by decide)]
    simp [withField, lookupField]

theorem base_lookup_file (cfg : String → String) (m : BuildMeta) (ctx : Option CtxData)
    (f fn : String) :
    lookupField (getBaseEntry cfg m ctx f fn) "file" = some (.str f) := by
  cases ctx with
  | none =>
    unfold getBaseEntry
    dsimp only
    rw [lookup_attachMeta_other _ _ _ (by decide) (by decide) (by decide) (by decide) (by decide)]
    simp [withField, lookupField]
  | some c =>
    unfold getBaseEntry
    dsimp only
    rw [lookup_attachMeta_other _ _ _ (by decide) (by decide) (by decide) (by decide) (by decide),
      lookup_attachCtx_other _ _ _ (by decide) (by decide) (by decide) (by decide)]
    simp [withField, lookupField]

theorem base_lookup_func (cfg : String → String) (m : BuildMeta) (ctx : Option CtxData)
    (f fn : String) :
    lookupField (getBaseEntry cfg m ctx f fn) "func" = some (.str fn) := by
  cases ctx with
  | none =>
    unfold getBaseEntry
    dsimp only
    rw [lookup_attachMeta_other _ _ _ (by decide) (by decide) (by decide) (by decide) (by decide)]
    simp [withField, lookupField]
  | some c =>
    unfold getBaseEntry
    dsimp only
    rw [lookup_attachMeta_other _ _ _ (by decide) (by decide) (by decide) (by decide) (by decide),
      lookup_attachCtx_other _ _ _ (by decide) (by decide) (by decide) (by decide)]
    simp [withField, lookupField]

theorem base_lookup_stacktrace (cfg : String → String) (m : BuildMeta) (ctx : Option CtxData)
    (f fn : String) :
    lookupField (getBaseEntry cfg m ctx f fn) "stacktrace" = none := by
  cases ctx with
  | none =>
    unfold getBaseEntry
    dsimp only
    rw [lookup_attachMeta_other _ _ _ (by decide) (by decide) (by decide) (by decide) (by decide)]
    simp [withField, lookupField]
  | some c =>
    unfold getBaseEntry
    dsimp only
    rw [lookup_attachMeta_other _ _ _ (by decide) (by decide) (by decide) (by decide) (by decide),
      lookup_attachCtx_other _ _ _ (by decide) (by decide) (by decide) (by decide)]
    simp [withField, lookupField]

theorem base_lookup_trace (cfg : String → String) (m : BuildMeta) (ctx : Option CtxData)
    (f fn : String) :
    lookupField (getBaseEntry cfg m ctx f fn) "trace" =
      match ctx with
      | none => none
      | some c =>
        if (ctxValue c "traceid").neStrEmpty then some (ctxValue c "traceid") else none := by
  cases ctx with
  | none =>
    unfold getBaseEntry
    dsimp only
    rw [lookup_attachMeta_other _ _ _ (by decide) (by decide) (by decide) (by decide) (by decide)]
    simp [withField, lookupField]
  | some c =>
    unfold getBaseEntry
    dsimp only
    rw [lookup_attachMeta_other _ _ _ (by decide) (by decide) (by decide) (by decide) (by decide),
      lookup_attachCtx_trace]
    simp [withField, lookupField]

theorem base_lookup_ip (cfg : String → String) (m : BuildMeta) (ctx : Option CtxData)
    (f fn : String) :
    lookupField (getBaseEntry cfg m ctx f fn) "ip" =
      match ctx with
      | none => none
      | some c =>
        if (ctxValue c "ip").neStrEmpty then some (ctxValue c "ip") else none := by
  cases ctx with
  | none =>
    unfold getBaseEntry
    dsimp only
    rw [lookup_attachMeta_other _ _ _ (by decide) (by decide) (by decide) (by decide) (by decide)]
    simp [withField, lookupField]
  | some c =>
    unfold getBaseEntry
    dsimp only
    rw [lookup_attachMeta_other _ _ _ (by decide) (by decide) (by decide) (by decide) (by decide),
      lookup_attachCtx_ip]
    simp [withField, lookupField]

theorem base_lookup_merchant (cfg : String → String) (m : BuildMeta) (ctx : Option CtxData)
    (f fn : String) :
    lookupField (getBaseEntry cfg m ctx f fn) "merchantId" =
      match ctx with
      | none => none
      | some c =>
        if (ctxValue c "MERCHANT_KEY").neStrEmpty then some (ctxValue c "MERCHANT_KEY")
        else none := by
  cases ctx with
  | none =>
    unfold getBaseEntry
    dsimp only
    rw [lookup_attachMeta_other _ _ _ (by decide) (by decide) (by decide) (by decide) (by decide)]
    simp [withField, lookupField]
  | some c =>
    unfold getBaseEntry
    dsimp only
    rw [lookup_attachMeta_other _ _ _ (by decide) (by decide) (by decide) (by decide) (by decide),
      lookup_attachCtx_merchant]
    simp [withField, lookupField]

theorem base_lookup_operator (cfg : String → String) (m : BuildMeta) (ctx : Option CtxData)
    (f fn : String) :
    lookupField (getBaseEntry cfg m ctx f fn) "operator" =
      match ctx with
      | none => none
      | some c =>
        if (ctxValue c "OPERATOR_KEY").neStrEmpty then some (ctxValue c "OPERATOR_KEY")
        else none := by
  cases ctx with
  | none =>
    unfold getBaseEntry
    dsimp only
    rw [lookup_attachMeta_other _ _ _ (by decide) (by decide) (by decide) (by decide) (by decide)]
    simp [withField, lookupField]
  | some c =>
    unfold getBaseEntry
    dsimp only
    rw [lookup_attachMeta_other _ _ _ (by decide) (by decide) (by decide) (by decide) (by decide),
      lookup_attachCtx_operator]
    simp [withField, lookupField]

theorem base_lookup_image (cfg : String → String) (m : BuildMeta) (ctx : Option CtxData)
    (f fn : String) :
    lookupField (getBaseEntry cfg m ctx f fn) "image" =
      if m.Image != "" then some (.str m.Image) else none := by
  cases ctx with
  | none =>
    unfold getBaseEntry
    dsimp only
    rw [lookup_attachMeta_image]
    simp [withField, lookupField]
  | some c =>
    unfold getBaseEntry
    dsimp only
    rw [lookup_attachMeta_image,
      lookup_attachCtx_other _ _ _ (by decide) (by decide) (by decide) (by decide)]
    simp [withField, lookupField]

theorem base_lookup_gitCommit (cfg : String → String) (m : BuildMeta) (ctx : Option CtxData)
    (f fn : String) :
    lookupField (getBaseEntry cfg m ctx f fn) "git_commit" =
      if m.GitCommit != "" then some (.str m.GitCommit) else none := by
  cases ctx with
  | none =>
    unfold getBaseEntry
    dsimp only
    rw [lookup_attachMeta_gitCommit]
    simp [withField, lookupField]
  | some c =>
    unfold getBaseEntry
    dsimp only
    rw [lookup_attachMeta_gitCommit,
      lookup_attachCtx_other _ _ _ (by decide) (by decide) (by decide) (by decide)]
    simp [withField, lookupField]

theorem base_lookup_gitBranch (cfg : String → String) (m : BuildMeta) (ctx : Option CtxData)
    (f fn : String) :
    lookupField (getBaseEntry cfg m ctx f fn) "git_branch" =
      if m.GitBranch != "" then some (.str m.GitBranch) else none := by
  cases ctx with
  | none =>
    unfold getBaseEntry
    dsimp only
    rw [lookup_attachMeta_gitBranch]
    simp [withField, lookupField]
  | some c =>
    unfold getBaseEntry
    dsimp only
    rw [lookup_attachMeta_gitBranch,
      lookup_attachCtx_other _ _ _ (by decide) (by decide) (by decide) (by decide)]
    simp [withField, lookupField]

theorem base_lookup_buildTime (cfg : String → String) (m : BuildMeta) (ctx : Option CtxData)
    (f fn : String) :
    lookupField (getBaseEntry cfg m ctx f fn) "build_time" =
      if m.BuildTime != "" then some (.str m.BuildTime) else none := by
  cases ctx with
  | none =>
    unfold getBaseEntry
    dsimp only
    rw [lookup_attachMeta_buildTime]
    simp [withField, lookupField]
  | some c =>
    unfold getBaseEntry
    dsimp only
    rw [lookup_attachMeta_buildTime,
      lookup_attachCtx_other _ _ _ (by decide) (by decide) (by decide) (by decide)]
    simp [withField, lookupField]

/-! Lemmas relating the two source idioms for taking the part of a
string after the last separator (strings.Split plus last element, and
strings.LastIndex plus slicing) to the spec-side description. -/

theorem goSplit_ne_nil (sep : Char) (s : List Char) : goSplit sep s ≠ [] := by
  cases s with
  | nil => simp [goSplit]
  | cons c cs =>
    unfold goSplit
    split
    · simp
    · split <;> simp

theorem goSplit_of_not_mem (sep : Char) (s : List Char) (h : sep ∉ s) :
    goSplit sep s = [s] := by
  induction s with
  | nil => rfl
  | cons c cs ih =>
    rw [List.mem_cons, not_or] at h
    unfold goSplit
    rw [if_neg (fun hEq => h.1 hEq.symm), ih h.2]

theorem goSplit_length_of_mem (sep : Char) (s : List Char) (h : sep ∈ s) :
    2 ≤ (goSplit sep s).length := by
  induction s with
  | nil => cases h
  | cons c cs ih =>
    unfold goSplit
    by_cases hc : c = sep
    · rw [if_pos hc]
      have hl : 0 < (goSplit sep cs).length := List.length_pos.mpr (goSplit_ne_nil sep cs)
      simp only [List.length_cons]
      omega
    · rw [if_neg hc]
      have hm : sep ∈ cs := by
        rcases List.mem_cons.mp h with h' | h'
        · exact absurd h'.symm hc
        · exact h'
      have h2 := ih hm
      cases hgs : goSplit sep cs with
      | nil => exact absurd hgs (goSplit_ne_nil sep cs)
      | cons p ps =>
        rw [hgs] at h2
        simp only [List.length_cons] at h2 ⊢
        omega

theorem getLastD_of_ne_nil (l : List (List Char)) (d1 d2 : List Char) (h : l ≠ []) :
    l.getLastD d1 = l.getLastD d2 := by
  cases l with
  | nil => exact absurd rfl h
  | cons a as =>
    rw [List.getLastD_cons, List.getLastD_cons]

theorem specFinalSegment_of_not_mem (sep : Char) (s : List Char) (h : sep ∉ s) :
    specFinalSegment sep s = s := by
  cases s with
  | nil => rfl
  | cons c cs =>
    rw [List.mem_cons, not_or] at h
    unfold specFinalSegment
    rw [if_neg (not_or.mpr ⟨fun hEq => h.1 hEq.symm, h.2⟩)]

theorem goSplit_getLastD (sep : Char) (s : List Char) :
    (goSplit sep s).getLastD [] = specFinalSegment sep s := by
  induction s with
  | nil => rfl
  | cons c cs ih =>
    by_cases hc : c = sep
    · unfold goSplit specFinalSegment
      rw [if_pos hc, if_pos (Or.inl hc), List.getLastD_cons]
      rw [← ih]
    · by_cases hm : sep ∈ cs
      · unfold goSplit specFinalSegment
        rw [if_neg hc, if_pos (Or.inr hm)]
        cases hgs : goSplit sep cs with
        | nil => exact absurd hgs (goSplit_ne_nil sep cs)
        | cons p ps =>
          have h2 := goSplit_length_of_mem sep cs hm
          rw [hgs] at h2
          have hps : ps ≠ [] := by
            cases ps with
            | nil => simp at h2
            | cons q qs => simp
          rw [List.getLastD_cons, ← ih, hgs, List.getLastD_cons]
          exact getLastD_of_ne_nil ps _ _ hps
      · unfold goSplit specFinalSegment
        rw [if_neg hc, if_neg (not_or.mpr ⟨hc, hm⟩), goSplit_of_not_mem sep cs hm]
        rfl

theorem goLastIndex_nonneg_iff (sep : Char) (s : List Char) :
    0 ≤ goLastIndex sep s ↔ sep ∈ s := by
  induction s with
  | nil => simp [goLastIndex]
  | cons c cs ih =>
    unfold goLastIndex
    dsimp only
    by_cases hr : 0 ≤ goLastIndex sep cs
    · rw [if_pos hr]
      constructor
      · intro _
        exact List.mem_cons_of_mem _ (ih.mp hr)
      · intro _
        omega
    · rw [if_neg hr]
      by_cases hc : c = sep
      · rw [if_pos hc]
        simp [List.mem_cons, hc.symm]
      · rw [if_neg hc]
        have hcs : sep ∉ cs := fun hm => hr (ih.mpr hm)
        constructor
        · intro h0
          exact absurd h0 (by decide)
        · intro hmem
          rcases List.mem_cons.mp hmem with h' | h'
          · exact absurd h'.symm hc
          · exact absurd h' hcs

theorem goLastIndex_drop (sep : Char) (s : List Char) :
    s.drop ((goLastIndex sep s + 1).toNat) = specFinalSegment sep s := by
  induction s with
  | nil => rfl
  | cons c cs ih =>
    unfold goLastIndex specFinalSegment
    dsimp only
    by_cases hr : 0 ≤ goLastIndex sep cs
    · rw [if_pos hr]
      have hm : sep ∈ cs := (goLastIndex_nonneg_iff sep cs).mp hr
      rw [if_pos (Or.inr hm)]
      have hn : (goLastIndex sep cs + 1 + 1).toNat = (goLastIndex sep cs + 1).toNat + 1 := by
        omega
      rw [hn, List.drop_succ_cons]
      exact ih
    · rw [if_neg hr]
      have hm : sep ∉ cs := fun h => hr ((goLastIndex_nonneg_iff sep cs).mpr h)
      by_cases hc : c = sep
      · rw [if_pos hc, if_pos (Or.inl hc)]
        have h1 : ((0 : Int) + 1).toNat = 1 := rfl
        rw [h1, List.drop_succ_cons, List.drop_zero]
        exact (specFinalSegment_of_not_mem sep cs hm).symm
      · rw [if_neg hc, if_neg (not_or.mpr ⟨hc, hm⟩)]
        rfl

theorem base_lookup_instance (cfg : String → String) (m : BuildMeta) (ctx : Option CtxData)
    (f fn : String) :
    lookupField (getBaseEntry cfg m ctx f fn) "instance" =
      if m.Instance != "" then some (.str m.Instance) else none := by
  cases ctx with
  | none =>
    unfold getBaseEntry
    dsimp only
    rw [lookup_attachMeta_instance]
    simp [withField, lookupField]
  | some c =>
    unfold getBaseEntry
    dsimp only
    rw [lookup_attachMeta_instance,
      lookup_attachCtx_other _ _ _ (by decide) (by decide) (by decide) (by decide)]
    simp [withField, lookupField]

/-- The build-metadata snapshot when all five environment variables are
unset: every field defaults to the empty string. -/
def emptyMeta : BuildMeta := ⟨"", "", "", "", ""⟩

/-- The nine conditionally attached field names. -/
def optionalFieldKeys : List String :=
  ["trace", "ip", "merchantId", "operator",
   "image", "git_commit", "git_branch", "build_time", "instance"]

/-- The field names an entry built from a nil context can carry. -/
def nilCtxKeys : List String :=
  ["server", "file", "func",
   "image", "git_commit", "git_branch", "build_time", "instance"]

theorem lookupField_withField_ne (e : Entry) (k key : String) (v : GoValue)
    (h : ¬ k = key) : lookupField (withField e k v) key = lookupField e key := by
  unfold withField
  exact lookupField_cons_ne v e h

theorem lookupField_withField_self (e : Entry) (k : String) (v : GoValue) :
    lookupField (withField e k v) k = some v := by
  simp [withField, lookupField]

theorem neStrEmpty_ne_emptyStr (v : GoValue) (h : v.neStrEmpty = true) :
    v ≠ GoValue.str "" := by
  cases v with
  | nil =>
    intro hEq
    cases hEq
  | str s =>
    intro hEq
    injection hEq with hs
    subst hs
    simp [GoValue.neStrEmpty] at h

theorem ctxField_ne_emptyStr (v : GoValue) :
    (if v.neStrEmpty then some v else none) ≠ some (GoValue.str "") := by
  by_cases h : v.neStrEmpty = true
  · rw [if_pos h]
    intro hEq
    injection hEq with h'
    exact neStrEmpty_ne_emptyStr v h h'
  · rw [if_neg h]
    simp

theorem metaField_ne_emptyStr (s : String) :
    (if s != "" then some (GoValue.str s) else none) ≠ some (GoValue.str "") := by
  by_cases h : (s != "") = true
  · rw [if_pos h]
    intro hEq
    injection hEq with h'
    injection h' with hs
    subst hs
    simp at h
  · rw [if_neg h]
    simp

theorem base_optional_ne_emptyStr (cfg : String → String) (m : BuildMeta)
    (ctx : Option CtxData) (f fn : String) :
    ∀ k ∈ optionalFieldKeys,
      lookupField (getBaseEntry cfg m ctx f fn) k ≠ some (GoValue.str "") := by
  intro k hk
  simp only [optionalFieldKeys, List.mem_cons, List.not_mem_nil, or_false] at hk
  rcases hk with rfl | rfl | rfl | rfl | rfl | rfl | rfl | rfl | rfl
  · cases ctx with
    | none => rw [base_lookup_trace]; simp
    | some c => rw [base_lookup_trace]; exact ctxField_ne_emptyStr _
  · cases ctx with
    | none => rw [base_lookup_ip]; simp
    | some c => rw [base_lookup_ip]; exact ctxField_ne_emptyStr _
  · cases ctx with
    | none => rw [base_lookup_merchant]; simp
    | some c => rw [base_lookup_merchant]; exact ctxField_ne_emptyStr _
  · cases ctx with
    | none => rw [base_lookup_operator]; simp
    | some c => rw [base_lookup_operator]; exact ctxField_ne_emptyStr _
  · rw [base_lookup_image]; exact metaField_ne_emptyStr _
  · rw [base_lookup_gitCommit]; exact metaField_ne_emptyStr _
  · rw [base_lookup_gitBranch]; exact metaField_ne_emptyStr _
  · rw [base_lookup_buildTime]; exact metaField_ne_emptyStr _
  · rw [base_lookup_instance]; exact metaField_ne_emptyStr _

theorem mem_optional_ne_stacktrace {k : String} (hk : k ∈ optionalFieldKeys) :
    ¬ "stacktrace" = k := by
  simp only [optionalFieldKeys, List.mem_cons, List.not_mem_nil, or_false] at hk
  rcases hk with rfl | rfl | rfl | rfl | rfl | rfl | rfl | rfl | rfl <;> decide

end Open4goLog

namespace OperationModel

/-- Database table prefix (src, package operation). -/
def collectionNamePrefix : String := "auth_"

/-- Database table suffix (src, package operation). -/
def collectionNameSuffix : String := "_log"

/-- Model name constant (src, package operation). -/
def modelName : String := "operation"

/-- The operation-log audit record (src, package operation, type Model);
the embedded base model and the ObjectID are opaque strings here. -/
structure Model where
  ID : String
  Timestamp : Nat
  ClientIP : String
  RemoteIP : String
  FullPath : String
  Method : String
  RespCode : Int
  TargetID : String
  Device : String
  Operator : String
  UserID : String
  AccountID : String
  Before : String
  After : String
deriving DecidableEq, Repr

/-- ResourceName (src/model/login/method.go): returns the model name;
reads no field of the receiver and mutates nothing. -/
def ResourceName (_ : Model) : String := modelName

/-- CollectionName (src/model/login/method.go): prefix ++ model name ++
suffix; reads no field of the receiver and mutates nothing. -/
def CollectionName (_ : Model) : String :=
  collectionNamePrefix ++ modelName ++ collectionNameSuffix

end OperationModel

namespace Open4goLog

/-- C1: the spec claims each of the four context fields is omitted when
the key is absent, and that a context holding only traceid = "abc123"
yields an entry with trace but without ip, merchantId and operator.
The code disagrees: ctx.Value(key) returns the nil interface for an
absent key, and in Go the nil interface compares unequal to the empty
string, so the guard value != "" passes and the field is attached with
a nil value.  This theorem evaluates the embedded getBaseEntry at the
claim's own example input and records that trace is attached as claimed
while ip, merchantId and operator are attached with the nil value
instead of being omitted. -/
theorem claim_C1_code_divergence :
    lookupField (getBaseEntry (fun _ => "svc") emptyMeta
      (some [("traceid", GoValue.str "abc123")]) "main.go:10" "main") "trace" =
        some (GoValue.str "abc123") ∧
    lookupField (getBaseEntry (fun _ => "svc") emptyMeta
      (some [("traceid", GoValue.str "abc123")]) "main.go:10" "main") "ip" =
        some GoValue.nil ∧
    lookupField (getBaseEntry (fun _ => "svc") emptyMeta
      (some [("traceid", GoValue.str "abc123")]) "main.go:10" "main") "merchantId" =
        some GoValue.nil ∧
    lookupField (getBaseEntry (fun _ => "svc") emptyMeta
      (some [("traceid", GoValue.str "abc123")]) "main.go:10" "main") "operator" =
        some GoValue.nil := by
  decide

/-- C2: every entry built by Log, ErrorWithStack or ErrorfWithStack
contains the server, file and func fields, and no optional field
(trace, ip, merchantId, operator, image, git_commit, git_branch,
build_time, instance) is ever present with an empty-string value, for
any configuration, metadata snapshot, caller frame, context and stack
dump. -/
theorem claim_C2_presence_and_no_empty_optional (cfg : String → String) (m : BuildMeta)
    (caller : Option Frame) (ctx : Option CtxData) (stack : String) :
    ((lookupField (Log cfg m caller ctx) "server").isSome = true ∧
     (lookupField (Log cfg m caller ctx) "file").isSome = true ∧
     (lookupField (Log cfg m caller ctx) "func").isSome = true) ∧
    ((lookupField (ErrorWithStack cfg m caller ctx stack) "server").isSome = true ∧
     (lookupField (ErrorWithStack cfg m caller ctx stack) "file").isSome = true ∧
     (lookupField (ErrorWithStack cfg m caller ctx stack) "func").isSome = true) ∧
    ((lookupField (ErrorfWithStack cfg m caller ctx stack) "server").isSome = true ∧
     (lookupField (ErrorfWithStack cfg m caller ctx stack) "file").isSome = true ∧
     (lookupField (ErrorfWithStack cfg m caller ctx stack) "func").isSome = true) ∧
    (∀ k ∈ optionalFieldKeys,
      lookupField (Log cfg m caller ctx) k ≠ some (GoValue.str "") ∧
      lookupField (ErrorWithStack cfg m caller ctx stack) k ≠ some (GoValue.str "") ∧
      lookupField (ErrorfWithStack cfg m caller ctx stack) k ≠ some (GoValue.str "")) := by
  refine ⟨⟨?_, ?_, ?_⟩, ⟨?_, ?_, ?_⟩, ⟨?_, ?_, ?_⟩, ?_⟩
  · unfold Log
    rw [base_lookup_server]
    rfl
  · unfold Log
    rw [base_lookup_file]
    rfl
  · unfold Log
    rw [base_lookup_func]
    rfl
  · unfold ErrorWithStack
    rw [lookupField_withField_ne _ _ _ _ (by decide), base_lookup_server]
    rfl
  · unfold ErrorWithStack
    rw [lookupField_withField_ne _ _ _ _ (by decide), base_lookup_file]
    rfl
  · unfold ErrorWithStack
    rw [lookupField_withField_ne _ _ _ _ (by decide), base_lookup_func]
    rfl
  · unfold ErrorfWithStack
    rw [lookupField_withField_ne _ _ _ _ (by decide), base_lookup_server]
    rfl
  · unfold ErrorfWithStack
    rw [lookupField_withField_ne _ _ _ _ (by decide), base_lookup_file]
    rfl
  · unfold ErrorfWithStack
    rw [lookupField_withField_ne _ _ _ _ (by decide), base_lookup_func]
    rfl
  · intro k hk
    refine ⟨?_, ?_, ?_⟩
    · unfold Log
      exact base_optional_ne_emptyStr cfg m ctx _ _ k hk
    · unfold ErrorWithStack
      rw [lookupField_withField_ne _ _ _ _ (mem_optional_ne_stacktrace hk)]
      exact base_optional_ne_emptyStr cfg m ctx _ _ k hk
    · unfold ErrorfWithStack
      rw [lookupField_withField_ne _ _ _ _ (mem_optional_ne_stacktrace hk)]
      exact base_optional_ne_emptyStr cfg m ctx _ _ k hk

/-- Witness for C2 at a concrete call: a context carrying an empty
trace id, an absent ip and empty build metadata still yields no
empty-string optional field. -/
theorem claim_C2_witness :
    lookupField (Log (fun _ => "svc") emptyMeta none
        (some [("traceid", GoValue.str "")])) "trace" ≠ some (GoValue.str "") ∧
    (lookupField (Log (fun _ => "svc") emptyMeta none
        (some [("traceid", GoValue.str "")])) "server").isSome = true :=
  ⟨(((claim_C2_presence_and_no_empty_optional (fun _ => "svc") emptyMeta none
      (some [("traceid", GoValue.str "")]) "stk").2.2.2) "trace" (by decide)).1,
   (claim_C2_presence_and_no_empty_optional (fun _ => "svc") emptyMeta none
      (some [("traceid", GoValue.str "")]) "stk").1.1⟩

/-- C3: ErrorWithStack and ErrorfWithStack always attach a stacktrace
field holding the runtime's stack dump, which is a non-empty string
(debug.Stack always yields a non-empty dump; the dump is the ambient
parameter constrained by the hypothesis), while Log never produces a
stacktrace field. -/
theorem claim_C3_stacktrace (cfg : String → String) (m : BuildMeta)
    (caller : Option Frame) (ctx : Option CtxData) (stack : String)
    (hs : stack ≠ "") :
    (∃ s, s ≠ "" ∧ lookupField (ErrorWithStack cfg m caller ctx stack) "stacktrace" =
      some (GoValue.str s)) ∧
    (∃ s, s ≠ "" ∧ lookupField (ErrorfWithStack cfg m caller ctx stack) "stacktrace" =
      some (GoValue.str s)) ∧
    lookupField (Log cfg m caller ctx) "stacktrace" = none := by
  refine ⟨⟨stack, hs, ?_⟩, ⟨stack, hs, ?_⟩, ?_⟩
  · unfold ErrorWithStack getStackTrace
    exact lookupField_withField_self _ _ _
  · unfold ErrorfWithStack getStackTrace
    exact lookupField_withField_self _ _ _
  · unfold Log
    exact base_lookup_stacktrace cfg m ctx _ _

/-- Witness for C3 at a concrete call with a concrete stack dump. -/
theorem claim_C3_witness :
    (∃ s, s ≠ "" ∧ lookupField (ErrorWithStack (fun _ => "svc") emptyMeta none none
      "goroutine 1 [running]:") "stacktrace" = some (GoValue.str s)) ∧
    (∃ s, s ≠ "" ∧ lookupField (ErrorfWithStack (fun _ => "svc") emptyMeta none none
      "goroutine 1 [running]:") "stacktrace" = some (GoValue.str s)) ∧
    lookupField (Log (fun _ => "svc") emptyMeta none none) "stacktrace" = none :=
  claim_C3_stacktrace (fun _ => "svc") emptyMeta none none
    "goroutine 1 [running]:" (by decide)

/-- C4 counterexample: when the caller frame is unavailable the code
returns the sentinel pair ("unknown", "unknown"), not the pair
("unknown", "0") the claim states. -/
theorem claim_C4_counterexample : getCallerInfo none ≠ ("unknown", "0") := by
  decide

/-- C4 amended: when runtime caller lookup fails, getCallerInfo does
not abort and returns the sentinel pair ("unknown", "unknown"), and a
logging call still completes, carrying those sentinels as its file and
func fields. -/
theorem claim_C4_amended :
    getCallerInfo none = ("unknown", "unknown") ∧
    ∀ (cfg : String → String) (m : BuildMeta) (ctx : Option CtxData),
      lookupField (Log cfg m none ctx) "file" = some (GoValue.str "unknown") ∧
      lookupField (Log cfg m none ctx) "func" = some (GoValue.str "unknown") := by
  refine ⟨rfl, fun cfg m ctx => ⟨?_, ?_⟩⟩
  · unfold Log
    rw [base_lookup_file]
    rfl
  · unfold Log
    rw [base_lookup_func]
    rfl

/-- C5: the initialization switch maps each of the four recognized
level names to exactly that level, and every other string to info. -/
theorem claim_C5_init_level :
    (initLevel "debug" = LogrusLevel.debug ∧ initLevel "info" = LogrusLevel.info ∧
     initLevel "warn" = LogrusLevel.warn ∧ initLevel "error" = LogrusLevel.error) ∧
    ∀ s : String, s ≠ "debug" → s ≠ "info" → s ≠ "warn" → s ≠ "error" →
      initLevel s = LogrusLevel.info := by
  refine ⟨⟨rfl, rfl, rfl, rfl⟩, fun s h1 h2 h3 h4 => ?_⟩
  unfold initLevel
  rw [if_neg h1, if_neg h2, if_neg h3, if_neg h4]

/-- Witness for C5: an unrecognized name defaults to info. -/
theorem claim_C5_witness : initLevel "verbose" = LogrusLevel.info :=
  claim_C5_init_level.2 "verbose" (by decide) (by decide) (by decide) (by decide)

/-- C6: when all five build-metadata environment variables are unset
(every snapshot field is the empty string), none of image, git_commit,
git_branch, build_time, instance appear in any entry built by Log,
ErrorWithStack or ErrorfWithStack. -/
theorem claim_C6_empty_meta (cfg : String → String) (m : BuildMeta)
    (caller : Option Frame) (ctx : Option CtxData) (stack : String)
    (h1 : m.Image = "") (h2 : m.GitCommit = "") (h3 : m.GitBranch = "")
    (h4 : m.BuildTime = "") (h5 : m.Instance = "") :
    (lookupField (Log cfg m caller ctx) "image" = none ∧
     lookupField (Log cfg m caller ctx) "git_commit" = none ∧
     lookupField (Log cfg m caller ctx) "git_branch" = none ∧
     lookupField (Log cfg m caller ctx) "build_time" = none ∧
     lookupField (Log cfg m caller ctx) "instance" = none) ∧
    (lookupField (ErrorWithStack cfg m caller ctx stack) "image" = none ∧
     lookupField (ErrorWithStack cfg m caller ctx stack) "git_commit" = none ∧
     lookupField (ErrorWithStack cfg m caller ctx stack) "git_branch" = none ∧
     lookupField (ErrorWithStack cfg m caller ctx stack) "build_time" = none ∧
     lookupField (ErrorWithStack cfg m caller ctx stack) "instance" = none) ∧
    (lookupField (ErrorfWithStack cfg m caller ctx stack) "image" = none ∧
     lookupField (ErrorfWithStack cfg m caller ctx stack) "git_commit" = none ∧
     lookupField (ErrorfWithStack cfg m caller ctx stack) "git_branch" = none ∧
     lookupField (ErrorfWithStack cfg m caller ctx stack) "build_time" = none ∧
     lookupField (ErrorfWithStack cfg m caller ctx stack) "instance" = none) := by
  refine ⟨⟨?_, ?_, ?_, ?_, ?_⟩, ⟨?_, ?_, ?_, ?_, ?_⟩, ⟨?_, ?_, ?_, ?_, ?_⟩⟩
  · unfold Log; rw [base_lookup_image]; simp [h1]
  · unfold Log; rw [base_lookup_gitCommit]; simp [h2]
  · unfold Log; rw [base_lookup_gitBranch]; simp [h3]
  · unfold Log; rw [base_lookup_buildTime]; simp [h4]
  · unfold Log; rw [base_lookup_instance]; simp [h5]
  · unfold ErrorWithStack
    rw [lookupField_withField_ne _ _ _ _ (by decide), base_lookup_image]; simp [h1]
  · unfold ErrorWithStack
    rw [lookupField_withField_ne _ _ _ _ (by decide), base_lookup_gitCommit]; simp [h2]
  · unfold ErrorWithStack
    rw [lookupField_withField_ne _ _ _ _ (by decide), base_lookup_gitBranch]; simp [h3]
  · unfold ErrorWithStack
    rw [lookupField_withField_ne _ _ _ _ (by decide), base_lookup_buildTime]; simp [h4]
  · unfold ErrorWithStack
    rw [lookupField_withField_ne _ _ _ _ (by decide), base_lookup_instance]; simp [h5]
  · unfold ErrorfWithStack
    rw [lookupField_withField_ne _ _ _ _ (by decide), base_lookup_image]; simp [h1]
  · unfold ErrorfWithStack
    rw [lookupField_withField_ne _ _ _ _ (by decide), base_lookup_gitCommit]; simp [h2]
  · unfold ErrorfWithStack
    rw [lookupField_withField_ne _ _ _ _ (by decide), base_lookup_gitBranch]; simp [h3]
  · unfold ErrorfWithStack
    rw [lookupField_withField_ne _ _ _ _ (by decide), base_lookup_buildTime]; simp [h4]
  · unfold ErrorfWithStack
    rw [lookupField_withField_ne _ _ _ _ (by decide), base_lookup_instance]; simp [h5]

/-- Witness for C6 at the all-empty snapshot. -/
theorem claim_C6_witness :
    emptyMeta.Image = "" ∧
    lookupField (Log (fun _ => "svc") emptyMeta none none) "image" = none ∧
    lookupField (ErrorWithStack (fun _ => "svc") emptyMeta none none "stk") "instance" =
      none :=
  ⟨rfl,
   (claim_C6_empty_meta (fun _ => "svc") emptyMeta none none "stk"
     rfl rfl rfl rfl rfl).1.1,
   (claim_C6_empty_meta (fun _ => "svc") emptyMeta none none "stk"
     rfl rfl rfl rfl rfl).2.1.2.2.2.2⟩

end Open4goLog

namespace Open4goLog

/-- C7: a nil context never fails a Log call: the embedded Log is total
and the resulting entry carries exactly the always-present server, file
and func fields plus those build-metadata fields whose snapshot value
is non-empty; no context-derived field (and no stacktrace) appears, and
every key of the entry belongs to the allowed set. -/
theorem claim_C7_nil_context (cfg : String → String) (m : BuildMeta)
    (caller : Option Frame) :
    (lookupField (Log cfg m caller none) "server").isSome = true ∧
    (lookupField (Log cfg m caller none) "file").isSome = true ∧
    (lookupField (Log cfg m caller none) "func").isSome = true ∧
    lookupField (Log cfg m caller none) "trace" = none ∧
    lookupField (Log cfg m caller none) "ip" = none ∧
    lookupField (Log cfg m caller none) "merchantId" = none ∧
    lookupField (Log cfg m caller none) "operator" = none ∧
    lookupField (Log cfg m caller none) "stacktrace" = none ∧
    (lookupField (Log cfg m caller none) "image" =
      if m.Image != "" then some (GoValue.str m.Image) else none) ∧
    (lookupField (Log cfg m caller none) "git_commit" =
      if m.GitCommit != "" then some (GoValue.str m.GitCommit) else none) ∧
    (lookupField (Log cfg m caller none) "git_branch" =
      if m.GitBranch != "" then some (GoValue.str m.GitBranch) else none) ∧
    (lookupField (Log cfg m caller none) "build_time" =
      if m.BuildTime != "" then some (GoValue.str m.BuildTime) else none) ∧
    (lookupField (Log cfg m caller none) "instance" =
      if m.Instance != "" then some (GoValue.str m.Instance) else none) ∧
    ((Log cfg m caller none).all fun kv => nilCtxKeys.contains kv.1) = true := by
  refine ⟨?_, ?_, ?_, ?_, ?_, ?_, ?_, ?_, ?_, ?_, ?_, ?_, ?_, ?_⟩
  · unfold Log; rw [base_lookup_server]; rfl
  · unfold Log; rw [base_lookup_file]; rfl
  · unfold Log; rw [base_lookup_func]; rfl
  · unfold Log; rw [base_lookup_trace]
  · unfold Log; rw [base_lookup_ip]
  · unfold Log; rw [base_lookup_merchant]
  · unfold Log; rw [base_lookup_operator]
  · unfold Log; exact base_lookup_stacktrace cfg m none _ _
  · unfold Log; rw [base_lookup_image]
  · unfold Log; rw [base_lookup_gitCommit]
  · unfold Log; rw [base_lookup_gitBranch]
  · unfold Log; rw [base_lookup_buildTime]
  · unfold Log; rw [base_lookup_instance]
  · unfold Log getBaseEntry attachMetaFields
    dsimp only
    split <;> split <;> split <;> split <;> split <;> rfl

/-- C8: on a resolvable frame, getCallerInfo returns the last path
component of the file followed by a colon and the line number, and the
final identifier segment of the fully qualified function name after
the last dot (everything up to and including the last dot stripped);
stated against the spec-side segment description and proved for every
frame. -/
theorem claim_C8_caller_format (f : Frame) :
    getCallerInfo (some f) =
      (String.mk (specFinalSegment '/' f.file.toList) ++ ":" ++ toString f.line,
       String.mk (specFinalSegment '.' f.funcName.toList)) := by
  unfold getCallerInfo
  dsimp only
  rw [goSplit_getLastD, goLastIndex_drop]

/-- C9: getBaseEntry unconditionally attaches the server field with the
value the configuration holds for server.name at that call (the
configuration is consulted anew on every call, so two calls with
different configurations see their own values), including the empty
string when the key is unconfigured. -/
theorem claim_C9_server_always (cfg : String → String) (m : BuildMeta)
    (ctx : Option CtxData) (f fn : String) :
    lookupField (getBaseEntry cfg m ctx f fn) "server" =
      some (GoValue.str (cfg "server.name")) ∧
    lookupField (getBaseEntry (fun _ => "") m ctx f fn) "server" =
      some (GoValue.str "") :=
  ⟨base_lookup_server cfg m ctx f fn, base_lookup_server (fun _ => "") m ctx f fn⟩

end Open4goLog

namespace OperationModel

/-- C10: for every value of the operation-log audit model, ResourceName
returns the constant "operation" and CollectionName returns the prefix,
model name and suffix concatenated, i.e. "auth_operation_log"; both are
pure functions of the receiver (they read no field and mutate
nothing). -/
theorem claim_C10_naming (mo : Model) :
    ResourceName mo = "operation" ∧
    CollectionName mo = "auth_operation_log" ∧
    CollectionName mo = collectionNamePrefix ++ modelName ++ collectionNameSuffix :=
  ⟨rfl, rfl, rfl⟩

end OperationModel
